import Mathlib

/-!
Verification of the BIO_MCP_AGENT utility layer (PubMed/PMC MCP servers).

This file gives a shallow embedding in Lean 4 of the JavaScript/TypeScript
functions of `src/utils.ts` (the repository file appearing as
`src/unnamed/part_000`) and of the tool handlers of
`src/servers/PubMed-MCP-Server-main/src/index.ts`, and proves or refutes the
frozen specification claims about them.

Modelling conventions:
* JavaScript strings are modelled as Lean `String` (lists of characters);
  character classes (`\s`, `\w`, `\d`) are modelled over the code points the
  repository actually manipulates (ASCII plus NBSP for `\s`); `toUpperCase`
  is modelled on the ASCII letters.
* Untyped JavaScript values (the parsed XML trees fed to `extractText`) are
  modelled by the mutual inductive `JVal`/`JList`/`JObj` below: strings,
  numbers (as integers), booleans, `null`, `undefined`, arrays and plain
  objects with insertion-ordered, distinct string keys.
* Asynchronous code is modelled by explicit state passing: the rate limiter
  by a function from (current time, last-dispatch time, queued tasks) to the
  list of dispatch instants, time being rational milliseconds; `setTimeout`
  sleeps advance time exactly.
* Exceptions are modelled with `Except`; JavaScript error values by `ErrVal`.
-/

/-! ## JavaScript character and string primitives -/

/-- The JavaScript `\s` class, restricted to the code points relevant here:
space, tab, LF, VT, FF, CR and NBSP. -/
def jsWhitespace (c : Char) : Bool :=
  c = ' ' || c = '\t' || c = '\n' || c = '\x0b' || c = '\x0c' || c = '\r' || c = ' '

/-- The JavaScript `\w` class: `[A-Za-z0-9_]`. -/
def isWordChar (c : Char) : Bool :=
  ('A' ≤ c && c ≤ 'Z') || ('a' ≤ c && c ≤ 'z') || ('0' ≤ c && c ≤ '9') || c = '_'

/-- The JavaScript `\d` class: `[0-9]`. -/
def isDigitChar (c : Char) : Bool :=
  '0' ≤ c && c ≤ '9'

/-- `String.prototype.toUpperCase`, modelled on ASCII letters (all characters
the repository's identifiers contain); other characters are unchanged. -/
def jsUpperChar (c : Char) : Char :=
  if c = 'a' then 'A' else if c = 'b' then 'B' else if c = 'c' then 'C' else
  if c = 'd' then 'D' else if c = 'e' then 'E' else if c = 'f' then 'F' else
  if c = 'g' then 'G' else if c = 'h' then 'H' else if c = 'i' then 'I' else
  if c = 'j' then 'J' else if c = 'k' then 'K' else if c = 'l' then 'L' else
  if c = 'm' then 'M' else if c = 'n' then 'N' else if c = 'o' then 'O' else
  if c = 'p' then 'P' else if c = 'q' then 'Q' else if c = 'r' then 'R' else
  if c = 's' then 'S' else if c = 't' then 'T' else if c = 'u' then 'U' else
  if c = 'v' then 'V' else if c = 'w' then 'W' else if c = 'x' then 'X' else
  if c = 'y' then 'Y' else if c = 'z' then 'Z' else c

/-- `String.prototype.trim` on character lists: drop `\s` characters from
both ends. -/
def trimChars (l : List Char) : List Char :=
  ((l.dropWhile jsWhitespace).reverse.dropWhile jsWhitespace).reverse

/-- One pass of the regex replacement `/\s+/g → " "`: the flag records
whether the previous character belonged to a whitespace run already replaced. -/
def collapseGo : Bool → List Char → List Char
  | _, [] => []
  | inWs, c :: rest =>
      if jsWhitespace c then
        if inWs then collapseGo true rest else ' ' :: collapseGo true rest
      else c :: collapseGo false rest

/-- The regex replacement `term.replace(/\s+/g, ' ')`. -/
def collapseWs (l : List Char) : List Char := collapseGo false l

/-- `String.prototype.startsWith` on character lists. -/
def isPrefixL : List Char → List Char → Bool
  | [], _ => true
  | _ :: _, [] => false
  | a :: as, b :: bs => a = b && isPrefixL as bs

/-- `Array.prototype.join(' ')` over already-converted strings. -/
def joinSp : List String → String
  | [] => ""
  | [s] => s
  | s :: rest => s ++ " " ++ joinSp rest

/-! ## Untyped JavaScript values (parsed XML trees) -/

mutual
/-- An untyped JavaScript value as produced by `xml2js` parsing: a string,
number (integral), boolean, `null`, `undefined`, array or plain object. -/
inductive JVal where
  | str : String → JVal
  | num : Int → JVal
  | jsBool : Bool → JVal
  | jsNull : JVal
  | undef : JVal
  | arr : JList → JVal
  | obj : JObj → JVal
/-- A JavaScript array of `JVal`s. -/
inductive JList where
  | nil : JList
  | cons : JVal → JList → JList
/-- A JavaScript plain object: insertion-ordered (key, value) pairs. -/
inductive JObj where
  | nil : JObj
  | cons : String → JVal → JObj → JObj
end

/-- JavaScript truthiness of a value. -/
def truthy : JVal → Bool
  | .str s => s ≠ ""
  | .num n => n ≠ 0
  | .jsBool b => b
  | .jsNull => false
  | .undef => false
  | .arr _ => true
  | .obj _ => true

/-- Property lookup on an object (first matching key, as JS keys are unique). -/
def getProp (k : String) : JObj → Option JVal
  | .nil => none
  | .cons k' v rest => if k' = k then some v else getProp k rest

/-- JavaScript property access `o[k]`: `undefined` when the key is absent. -/
def getPropD (k : String) (o : JObj) : JVal :=
  (getProp k o).getD .undef

mutual
/-- JavaScript `String(v)` coercion. -/
def toJSString : JVal → String
  | .str s => s
  | .num n => toString n
  | .jsBool b => if b then "true" else "false"
  | .jsNull => "null"
  | .undef => "undefined"
  | .arr l => arrToString l
  | .obj _ => "[object Object]"
termination_by structural v => v
/-- `Array.prototype.toString`: elements joined with `","`, `null` and
`undefined` rendered as the empty string. -/
def arrToString : JList → String
  | .nil => ""
  | .cons .jsNull .nil => ""
  | .cons .undef .nil => ""
  | .cons v .nil => toJSString v
  | .cons .jsNull rest => "," ++ arrToString rest
  | .cons .undef rest => "," ++ arrToString rest
  | .cons v rest => toJSString v ++ "," ++ arrToString rest
termination_by structural l => l
end

/-- How `Array.prototype.join` renders one element: `String(·)` coercion,
with `null` and `undefined` rendered as the empty string. -/
def elemStr : JVal → String
  | .jsNull => ""
  | .undef => ""
  | v => toJSString v

/-- `Array.prototype.join(' ')`. -/
def joinSpace (l : List JVal) : String :=
  joinSp (l.map elemStr)

mutual
/-- `extractText` from `src/utils.ts`:
```
if (typeof node === 'string') return node;
if (node?._) return node._;
if (Array.isArray(node)) return node.map(extractText).join(' ');
if (typeof node === 'object') return Object.values(node).map(extractText).join(' ');
return '';
```
`typeof null === 'object'`, and `Object.values(null)` throws a `TypeError`,
modelled by `.error ()`; the `node?._` branch can return a non-string value,
so the result is a `JVal`. -/
def extractText : JVal → Except Unit JVal
  | .str s => .ok (.str s)
  | .num _ => .ok (.str "")
  | .jsBool _ => .ok (.str "")
  | .undef => .ok (.str "")
  | .jsNull => .error ()
  | .arr l =>
      match extractList l with
      | .error e => .error e
      | .ok parts => .ok (.str (joinSpace parts))
  | .obj o =>
      let u := getPropD "_" o
      if truthy u then .ok u
      else
        match extractObjVals o with
        | .error e => .error e
        | .ok parts => .ok (.str (joinSpace parts))
termination_by structural v => v
/-- `node.map(extractText)` over an array, left to right, the first thrown
error propagating. -/
def extractList : JList → Except Unit (List JVal)
  | .nil => .ok []
  | .cons v rest =>
      match extractText v with
      | .error e => .error e
      | .ok r =>
          match extractList rest with
          | .error e => .error e
          | .ok rs => .ok (r :: rs)
termination_by structural l => l
/-- `Object.values(node).map(extractText)`, left to right. -/
def extractObjVals : JObj → Except Unit (List JVal)
  | .nil => .ok []
  | .cons _ v rest =>
      match extractText v with
      | .error e => .error e
      | .ok r =>
          match extractObjVals rest with
          | .error e => .error e
          | .ok rs => .ok (r :: rs)
termination_by structural o => o
end

mutual
/-- No `null` occurs anywhere in the value. -/
def nullFreeV : JVal → Bool
  | .jsNull => false
  | .arr l => nullFreeL l
  | .obj o => nullFreeO o
  | _ => true
termination_by structural v => v
/-- No `null` occurs in any element of the array. -/
def nullFreeL : JList → Bool
  | .nil => true
  | .cons v rest => nullFreeV v && nullFreeL rest
termination_by structural l => l
/-- No `null` occurs in any member value of the object. -/
def nullFreeO : JObj → Bool
  | .nil => true
  | .cons _ v rest => nullFreeV v && nullFreeO rest
termination_by structural o => o
end

example : extractText (.obj (.cons "a" (.obj (.cons "_" (.str "x") .nil))
    (.cons "b" (.arr (.cons (.str "y") (.cons (.str "z") .nil))) .nil))) =
    .ok (.str "x y z") := rfl

example : extractText .jsNull = .error () := rfl

example : extractText (.obj (.cons "k" .jsNull .nil)) = .error () := rfl

/-! ## Identifier validators and normalizers (`src/utils.ts`) -/

/-- Full match of the regex `\d+`: one or more decimal digits. -/
def digitsPlus : List Char → Bool
  | [] => false
  | [c] => isDigitChar c
  | c :: rest => isDigitChar c && digitsPlus rest

/-- `isValidPMID`: `/^\d+$/.test(pmid)`. -/
def isValidPMID (pmid : String) : Bool := digitsPlus pmid.data

/-- `isValidDOI`: `/^10\.\d{4,}\/\S+$/.test(doi)`; `\d{4,}` and `/` are
disjoint, so greedy matching is deterministic. -/
def isValidDOI (doi : String) : Bool :=
  match doi.data with
  | '1' :: '0' :: '.' :: rest =>
      4 ≤ (rest.takeWhile isDigitChar).length &&
      (match rest.dropWhile isDigitChar with
       | '/' :: t => !t.isEmpty && t.all (fun c => !jsWhitespace c)
       | _ => false)
  | _ => false

/-- `isValidPMCID`: `/^PMC\d+$/i.test(pmcid)`. -/
def isValidPMCID (pmcid : String) : Bool :=
  match pmcid.data with
  | p :: m :: c :: rest =>
      (p = 'P' || p = 'p') && (m = 'M' || m = 'm') && (c = 'C' || c = 'c') &&
      digitsPlus rest
  | _ => false

/-- `String.prototype.trim`. -/
def jsTrim (s : String) : String := String.mk (trimChars s.data)

/-- `String.prototype.toUpperCase` (ASCII model). -/
def jsToUpper (s : String) : String := String.mk (s.data.map jsUpperChar)

/-- `s.startsWith(p)`. -/
def strStartsWith (s p : String) : Bool := isPrefixL p.data s.data

/-- `normalizePMCID`: trim, uppercase, prefix `PMC` unless already present. -/
def normalizePMCID (pmcid : String) : String :=
  let cleaned := jsToUpper (jsTrim pmcid)
  if strStartsWith cleaned "PMC" then cleaned else "PMC" ++ cleaned

/-! ## Search query builder (`src/utils.ts`) -/

/-- The characters kept by `sanitizeSearchTerm`'s regex
`/[^\w\s\-\(\)\[\]"']/g` (everything else is replaced by a space). -/
def codeAllowedChar (c : Char) : Bool :=
  isWordChar c || jsWhitespace c || c = '-' || c = '(' || c = ')' ||
  c = '[' || c = ']' || c = '"' || c = '\''

/-- `sanitizeSearchTerm`: replace disallowed characters by spaces, collapse
`\s+` runs to single spaces, trim. -/
def sanitizeSearchTerm (term : String) : String :=
  String.mk (trimChars (collapseWs
    (term.data.map fun c => if codeAllowedChar c then c else ' ')))

/-- `buildFieldQuery(term, field)`: the sanitized term with `[field]`
appended. -/
def buildFieldQuery (term field : String) : String :=
  sanitizeSearchTerm term ++ "[" ++ field ++ "]"

/-- The character class `[A-Za-z0-9_\s()[\]"']` exactly as written in the
specification sentence behind claim C6 (note: no hyphen). -/
def specC6AllowedChar (c : Char) : Bool :=
  ('A' ≤ c && c ≤ 'Z') || ('a' ≤ c && c ≤ 'z') || ('0' ≤ c && c ≤ '9') ||
  c = '_' || jsWhitespace c || c = '(' || c = ')' || c = '[' || c = ']' ||
  c = '"' || c = '\''

/-- The sanitize-and-tag pipeline exactly as the specification words it:
replace every character outside `[A-Za-z0-9_\s()[\]"']` with a space,
collapse repeated whitespace, trim, append `[field]`. -/
def specC6BuildFieldQuery (term field : String) : String :=
  String.mk (trimChars (collapseWs
    (term.data.map fun c => if specC6AllowedChar c then c else ' ')))
  ++ "[" ++ field ++ "]"

/-- The specification's character class amended with the hyphen the code's
regex also keeps: `[A-Za-z0-9_\s\-()[\]"']`. -/
def specC6AllowedCharAmended (c : Char) : Bool :=
  specC6AllowedChar c || c = '-'

/-- The claim's pipeline with the amended character class. -/
def specC6BuildFieldQueryAmended (term field : String) : String :=
  String.mk (trimChars (collapseWs
    (term.data.map fun c => if specC6AllowedCharAmended c then c else ' ')))
  ++ "[" ++ field ++ "]"

/-! ## `chunkArray`, retry with backoff, rate limiter (`src/utils.ts`) -/

/-- Recursion core of `chunkArray`, fuelled by the list length. -/
def chunkGo {T : Type} : Nat → List T → Nat → List (List T)
  | 0, _, _ => []
  | _, [], _ => []
  | fuel + 1, l, size => l.take size :: chunkGo fuel (l.drop size) size

/-- `chunkArray(array, size)`: successive slices of `size` elements.  The
JavaScript loop (`for (i = 0; i < length; i += size)`) terminates only for
`size ≥ 1`, which is the only way the repository calls it (size 50); the
fuelled model is faithful for `size ≥ 1`. -/
def chunkArray {T : Type} (l : List T) (size : Nat) : List (List T) :=
  chunkGo l.length l size

/-- A JavaScript error value, as classified by `extractErrorMessage`. -/
inductive ErrVal where
  | errorInst : String → ErrVal
  | strVal : String → ErrVal
  | objMsg : JVal → ErrVal
  | otherVal : ErrVal

/-- `extractErrorMessage`: an `Error`'s message, a thrown string itself,
`String(error.message)` for an object with a `message` property, and a
generic fallback otherwise. -/
def extractErrorMessage : ErrVal → String
  | .errorInst m => m
  | .strVal s => s
  | .objMsg m => toJSString m
  | .otherVal => "Unknown error occurred"

/-- The observable outcome of one `retryWithBackoff` run: the returned value
or thrown error (`Except.error none` models the unreachable
`new Error('Max retries exceeded')`), how many times the task was invoked,
and the backoff delays slept, in order. -/
structure RetryOutcome (E A : Type) where
  result : Except (Option E) A
  calls : Nat
  delays : List Nat

/-- The `for (let i = 0; i < maxRetries; i++)` loop of `retryWithBackoff`;
`fn n` is the outcome of the task's `n`-th invocation, `rem` the remaining
iterations (`rem = maxRetries - i`), `lastErr` the saved `lastError`. -/
def retryGo {E A : Type} (fn : Nat → Except E A) (baseDelay : Nat) :
    Nat → Option E → Nat → RetryOutcome E A
  | _, lastErr, 0 => ⟨.error lastErr, 0, []⟩
  | i, _, rem + 1 =>
      match fn i with
      | .ok a => ⟨.ok a, 1, []⟩
      | .error e =>
          let ds := if 0 < rem then [baseDelay * 2 ^ i] else []
          let rest := retryGo fn baseDelay (i + 1) (some e) rem
          ⟨rest.result, rest.calls + 1, ds ++ rest.delays⟩

/-- `retryWithBackoff(fn, maxRetries, baseDelay)` (defaults 3 and 1000):
attempt the task up to `maxRetries` times, sleeping `baseDelay * 2^i`
milliseconds after failed attempt `i` whenever `i < maxRetries - 1`, and
rethrow the last error when all attempts fail. -/
def retryWithBackoff {E A : Type} (fn : Nat → Except E A)
    (maxRetries baseDelay : Nat) : RetryOutcome E A :=
  retryGo fn baseDelay 0 none maxRetries

/-- A task queued on the rate limiter: an identity (submission index) and
the duration its `await task()` takes. -/
structure GateTask where
  tid : Nat
  dur : ℚ

/-- The drain loop of `RateLimiter.execute`/`processQueue` for a gate with
minimum spacing `interval = 1000 / requestsPerSecond`: given the current
time `now` (when `processQueue` inspects the head of the queue), the
`lastRequestTime` `last`, and the queued tasks in FIFO order, produce the
`(task id, dispatch instant)` pairs.  The loop sleeps out
`interval - (now - last)` when `now - last < interval`, records the new
dispatch time, awaits the task (advancing time by its duration), and
recurses. -/
def runGate (interval : ℚ) : ℚ → ℚ → List GateTask → List (Nat × ℚ)
  | _, _, [] => []
  | now, last, t :: ts =>
      let start := if now - last < interval then last + interval else now
      (t.tid, start) :: runGate interval (start + t.dur) start ts

example : isValidPMID "12345" = true := rfl
example : isValidPMID "12a45" = false := rfl
example : isValidPMID "" = false := rfl
example : isValidDOI "10.1234/abc" = true := rfl
example : isValidDOI "10.123/abc" = false := rfl
example : isValidPMCID "pmc123" = true := rfl
example : normalizePMCID " 123 " = "PMC123" := rfl
example : normalizePMCID "pmc123" = "PMC123" := rfl
example : buildFieldQuery "cancer; treatment!" "Title" = "cancer treatment[Title]" := rfl
example : buildFieldQuery "a-b" "T" = "a-b[T]" := rfl
example : specC6BuildFieldQuery "a-b" "T" = "a b[T]" := rfl
example : chunkArray [1, 2, 3, 4, 5] 2 = [[1, 2], [3, 4], [5]] := rfl

/-! ## Citation formatter (`src/utils.ts`) -/

/-- An author record; `foreName` and `initials` are optional fields
(`undefined` when absent). -/
structure Author where
  lastName : String
  foreName : Option String
  initials : Option String

/-- The article record taken by `formatCitation`. -/
structure Article where
  authors : List Author
  title : String
  journal : String
  publicationDate : String
  volume : Option String
  issue : Option String
  pages : Option String
  doi : Option String

/-- The five citation styles. -/
inductive CitationStyle where
  | apa | mla | chicago | bibtex | ris

/-- JavaScript `x || y` on possibly-undefined strings: `x` when truthy
(defined and nonempty), else `y` unchanged. -/
def jsOr (x y : Option String) : Option String :=
  match x with
  | some s => if s = "" then y else some s
  | none => y

/-- Template interpolation `${x}` of a possibly-undefined string
(`undefined` prints as `"undefined"`). -/
def interp : Option String → String
  | some s => s
  | none => "undefined"

/-- `Array.prototype.join(sep)` over strings. -/
def joinWith (sep : String) : List String → String
  | [] => ""
  | [s] => s
  | s :: rest => s ++ sep ++ joinWith sep rest

/-- `if (article.field) out += mk(field)`: contributes only when truthy. -/
def optField (v : Option String) (mk : String → String) : String :=
  match v with
  | some s => if s = "" then "" else mk s
  | none => ""

/-- `s?.[0]`: the first character of an optional string, `undefined` when
the string is absent or empty. -/
def firstCharOpt : Option String → Option String
  | some s =>
      match s.data with
      | [] => none
      | c :: _ => some (String.mk [c])
  | none => none

/-- `publicationDate.split('-')[0]`: the part before the first `-`. -/
def yearOf (publicationDate : String) : String :=
  String.mk (publicationDate.data.takeWhile (· ≠ '-'))

/-- `pages.split('-')[0]`. -/
def pagesStart (pages : String) : String :=
  String.mk (pages.data.takeWhile (· ≠ '-'))

/-- `pages.split('-')[1]`: the part between the first and second `-`. -/
def pagesEnd (pages : String) : String :=
  String.mk (((pages.data.dropWhile (· ≠ '-')).drop 1).takeWhile (· ≠ '-'))

/-- `formatAPACitation`. -/
def formatAPACitation (article : Article) (authors : List Author)
    (year : String) : String :=
  let initialsOf := fun (a : Author) =>
    interp (jsOr a.initials (jsOr (firstCharOpt a.foreName) (some "")))
  let authorStr := joinWith ", " (authors.mapIdx fun i a =>
    if i = authors.length - 1 && 1 < authors.length then
      "& " ++ a.lastName ++ ", " ++ initialsOf a
    else
      a.lastName ++ ", " ++ initialsOf a)
  authorStr ++ ". (" ++ year ++ "). " ++ article.title ++ ". " ++ article.journal
    ++ optField article.volume (fun v =>
        ", " ++ v ++ optField article.issue (fun i => "(" ++ i ++ ")"))
    ++ optField article.pages (fun p => ", " ++ p)
    ++ optField article.doi (fun d => ". https://doi.org/" ++ d)

/-- `formatMLACitation`. -/
def formatMLACitation (article : Article) (authors : List Author)
    (year : String) : String :=
  let authorStr :=
    match authors with
    | [] => "Unknown"
    | a :: _ => a.lastName ++ ", " ++ interp (jsOr a.foreName a.initials)
  authorStr ++ ". \"" ++ article.title ++ "\" " ++ article.journal
    ++ optField article.volume (fun v =>
        " " ++ v ++ optField article.issue (fun i => "." ++ i))
    ++ " (" ++ year ++ ")"
    ++ optField article.pages (fun p => ": " ++ p)
    ++ "."

/-- `formatChicagoCitation`. -/
def formatChicagoCitation (article : Article) (authors : List Author)
    (year : String) : String :=
  let authorStr := joinWith ", " (authors.mapIdx fun i a =>
    if i = 0 then a.lastName ++ ", " ++ interp (jsOr a.foreName a.initials)
    else interp (jsOr a.foreName a.initials) ++ " " ++ a.lastName)
  authorStr ++ ". \"" ++ article.title ++ ".\" " ++ article.journal
    ++ optField article.volume (fun v =>
        " " ++ v ++ optField article.issue (fun i => ", no. " ++ i))
    ++ " (" ++ year ++ ")"
    ++ optField article.pages (fun p => ": " ++ p)
    ++ "."

/-- `formatBibTeXCitation`. -/
def formatBibTeXCitation (article : Article) (authors : List Author)
    (year : String) : String :=
  let authorStr := joinWith " and "
    (authors.map fun a => a.lastName ++ ", " ++ interp (jsOr a.foreName a.initials))
  let key := interp (jsOr (authors.head?.map (·.lastName)) (some "unknown")) ++ year
  "@article\x7b" ++ key ++ ",\n"
    ++ "  author = \x7b" ++ authorStr ++ "\x7d,\n"
    ++ "  title = \x7b" ++ article.title ++ "\x7d,\n"
    ++ "  journal = \x7b" ++ article.journal ++ "\x7d,\n"
    ++ "  year = \x7b" ++ year ++ "\x7d,\n"
    ++ optField article.volume (fun v => "  volume = \x7b" ++ v ++ "\x7d,\n")
    ++ optField article.issue (fun i => "  number = \x7b" ++ i ++ "\x7d,\n")
    ++ optField article.pages (fun p => "  pages = \x7b" ++ p ++ "\x7d,\n")
    ++ optField article.doi (fun d => "  doi = \x7b" ++ d ++ "\x7d,\n")
    ++ "\x7d"

/-- `formatRISCitation`. -/
def formatRISCitation (article : Article) (authors : List Author)
    (year : String) : String :=
  "TY  - JOUR\n"
    ++ String.join (authors.map fun a =>
        "AU  - " ++ a.lastName ++ ", " ++ interp (jsOr a.foreName a.initials) ++ "\n")
    ++ "TI  - " ++ article.title ++ "\n"
    ++ "JO  - " ++ article.journal ++ "\n"
    ++ "PY  - " ++ year ++ "\n"
    ++ optField article.volume (fun v => "VL  - " ++ v ++ "\n")
    ++ optField article.issue (fun i => "IS  - " ++ i ++ "\n")
    ++ optField article.pages (fun p => "SP  - " ++ pagesStart p ++ "\n")
    ++ (match article.pages with
        | some p => if p ≠ "" && p.data.any (· = '-')
                    then "EP  - " ++ pagesEnd p ++ "\n" else ""
        | none => "")
    ++ optField article.doi (fun d => "DO  - " ++ d ++ "\n")
    ++ "ER  - \n"

/-- `formatCitation(article, style)`: compute the year (text before the
first `-` of the publication date), keep the first 20 authors, and dispatch
on the style. -/
def formatCitation (article : Article) (style : CitationStyle) : String :=
  let year := yearOf article.publicationDate
  let authorList := article.authors.take 20
  match style with
  | .apa => formatAPACitation article authorList year
  | .mla => formatMLACitation article authorList year
  | .chicago => formatChicagoCitation article authorList year
  | .bibtex => formatBibTeXCitation article authorList year
  | .ris => formatRISCitation article authorList year

example :
    formatCitation
      ⟨[⟨"Doe", some "Jane", none⟩], "T", "J", "2024-01-15",
        none, none, none, none⟩ .bibtex =
    "@article\x7bDoe2024,\n  author = \x7bDoe, Jane\x7d,\n  title = \x7bT\x7d,\n  journal = \x7bJ\x7d,\n  year = \x7b2024\x7d,\n\x7d" := rfl

/-! ## Tool handler models (`src/servers/PubMed-MCP-Server-main/src/index.ts`)

The handlers below are parameterized by an oracle for the upstream
E-utilities client: every network operation is either a result or a thrown
error.  A handler returns the list of upstream requests it dispatched
(through the rate-limited client) together with its returned value or
thrown error, so "no network request is issued" is the statement that the
request list is empty. -/

/-- The identifier fields of an article used by `convert_identifiers`. -/
structure ArticleIds where
  pmid : Option String
  doi : Option String
  pmcid : Option String

/-- One upstream request dispatched through the rate-limited client. -/
inductive UpCall where
  | details : String → UpCall
  | batch : List String → UpCall
  | searchFor : String → UpCall

/-- The upstream E-utilities client, abstracted as an oracle. -/
structure EutilsOracle where
  getArticleDetails : String → Except ErrVal ArticleIds
  getArticlesBatch : List String → Except ErrVal (List ArticleIds)
  searchPmids : String → Except ErrVal (List String)

/-- `handleGetArticleDetails`: validate the PMID, then fetch the article. -/
def handleGetArticleDetails (o : EutilsOracle) (pmid : String) :
    List UpCall × Except ErrVal ArticleIds :=
  if !isValidPMID pmid then
    ([], .error (.errorInst ("Invalid PMID format: " ++ pmid)))
  else
    ([.details pmid], o.getArticleDetails pmid)

/-- The `for (const chunk of chunks)` loop of `handleBatchArticleLookup`:
one batch request per chunk, an error aborting the loop. -/
def runBatchChunks (o : EutilsOracle) :
    List (List String) → List UpCall × Except ErrVal (List ArticleIds)
  | [] => ([], .ok [])
  | c :: cs =>
      match o.getArticlesBatch c with
      | .error e => ([.batch c], .error e)
      | .ok arts =>
          let rest := runBatchChunks o cs
          (.batch c :: rest.1,
           match rest.2 with
           | .ok more => .ok (arts ++ more)
           | .error e => .error e)

/-- `handleBatchArticleLookup`: reject an empty batch, more than 200 PMIDs,
or any invalid PMID (first offender reported), then fetch in chunks of 50. -/
def handleBatchArticleLookup (o : EutilsOracle) (pmids : List String) :
    List UpCall × Except ErrVal (List ArticleIds) :=
  if pmids.length = 0 then
    ([], .error (.errorInst "pmids must be a non-empty array"))
  else if 200 < pmids.length then
    ([], .error (.errorInst "Maximum 200 PMIDs allowed per batch"))
  else
    match pmids.find? (fun p => !isValidPMID p) with
    | some p => ([], .error (.errorInst ("Invalid PMID format: " ++ p)))
    | none => runBatchChunks o (chunkArray pmids 50)

/-- The identifier-type resolution at the top of `handleConvertIdentifiers`:
an explicit type is taken as-is; `'auto'` tries PMID, then DOI, then PMC ID
validators and throws when none matches. -/
def resolveIdType (identifier idType : String) : Except ErrVal String :=
  if idType = "auto" then
    if isValidPMID identifier then .ok "pmid"
    else if isValidDOI identifier then .ok "doi"
    else if isValidPMCID identifier then .ok "pmcid"
    else .error (.errorInst "Unable to auto-detect identifier type")
  else .ok idType

/-- The `try` block of `handleConvertIdentifiers`: build the `conversions`
assignments, any upstream failure propagating out of the block. -/
def tryConvert (o : EutilsOracle) (identifier inputType : String) :
    Except ErrVal (List (String × Option String)) :=
  if inputType = "pmid" then
    match o.getArticleDetails identifier with
    | .error e => .error e
    | .ok a => .ok [("pmid", a.pmid), ("doi", a.doi), ("pmcid", a.pmcid)]
  else if inputType = "doi" then
    match o.searchPmids (identifier ++ "[DOI]") with
    | .error e => .error e
    | .ok [] => .ok []
    | .ok (p :: _) =>
        match o.getArticleDetails p with
        | .error e => .error e
        | .ok a => .ok [("pmid", a.pmid), ("doi", a.doi), ("pmcid", a.pmcid)]
  else if inputType = "pmcid" then
    match o.searchPmids (normalizePMCID identifier ++ "[PMC ID]") with
    | .error e => .error e
    | .ok [] => .ok []
    | .ok (p :: _) =>
        match o.getArticleDetails p with
        | .error e => .error e
        | .ok a => .ok [("pmid", a.pmid), ("doi", a.doi), ("pmcid", a.pmcid)]
  else .ok []

/-- The JSON payload of a `convert_identifiers` success content block
(`JSON.stringify` of the object abstracted as its fields; `errMsg = none`
when the `error` key is absent). -/
structure ConvertOut where
  inputId : String
  inputType : String
  conversions : List (String × Option String)
  errMsg : Option String

/-- `handleConvertIdentifiers`: resolve the type (throwing on auto-detect
failure), then run the `try` block; a caught error yields an ordinary
success payload with empty conversions and the extracted error message. -/
def handleConvertIdentifiers (o : EutilsOracle) (identifier idType : String) :
    Except ErrVal ConvertOut :=
  match resolveIdType identifier idType with
  | .error e => .error e
  | .ok t =>
      match tryConvert o identifier t with
      | .ok convs => .ok ⟨identifier, t, convs, none⟩
      | .error e => .ok ⟨identifier, t, [], some (extractErrorMessage e)⟩

/-- The JSON payload of a `validate_pmid` content block (`articleExists`
is absent from the invalid-format payload). -/
structure ValidateOut where
  valid : Bool
  pmid : String
  articleExists : Option Bool
  message : String

/-- `handleValidatePMID`: an invalid format yields a success payload with
`valid: false`; otherwise the upstream lookup is wrapped in `try`/`catch`,
and an upstream failure is caught and returned as a success payload with
`valid: true, exists: false` — this handler, too, never rethrows an
upstream failure. -/
def handleValidatePMID (o : EutilsOracle) (pmid : String) :
    Except ErrVal ValidateOut :=
  if !isValidPMID pmid then
    .ok ⟨false, pmid, none,
      "Invalid PMID format. PMID must contain only digits."⟩
  else
    match o.getArticleDetails pmid with
    | .ok _ => .ok ⟨true, pmid, some true, "Valid PMID and article exists"⟩
    | .error _ =>
        .ok ⟨true, pmid, some false, "Valid PMID format but article not found"⟩

/-! ## Claim-side shape predicates (claim C4) -/

/-- A JS array holding exactly the strings `ss`. -/
def strJList : List String → JList
  | [] => .nil
  | s :: rest => .cons (.str s) (strJList rest)

/-- A member value admitted by claim C4's input shape: an object carrying a
text payload under the underscore key, or a (nonempty, as in the claim's
exemplar) array of strings; the index is the list of leaf strings. -/
inductive MemberShape : JVal → List String → Prop
  | underscoreObj (s : String) :
      MemberShape (.obj (.cons "_" (.str s) .nil)) [s]
  | strArray (s : String) (ss : List String) :
      MemberShape (.arr (strJList (s :: ss))) (s :: ss)

/-- Claim C4's input shape: an object whose member values each satisfy
`MemberShape` (member keys are ordinary tag names, not the reserved text
payload key `"_"`); the index collects the leaf strings in traversal
order. -/
inductive OuterShape : JObj → List String → Prop
  | nil : OuterShape .nil []
  | cons (k : String) (v : JVal) (o : JObj) (ss ls : List String) :
      k ≠ "_" → MemberShape v ss → OuterShape o ls →
      OuterShape (.cons k v o) (ss ++ ls)

/-! ## Helper lemmas -/

theorem digitsPlus_iff (l : List Char) :
    digitsPlus l = true ↔ l ≠ [] ∧ ∀ c ∈ l, isDigitChar c = true := by
  induction l with
  | nil => simp [digitsPlus]
  | cons c rest ih =>
      cases rest with
      | nil => simp [digitsPlus]
      | cons d rest' =>
          rw [show digitsPlus (c :: d :: rest') =
                (isDigitChar c && digitsPlus (d :: rest')) from rfl,
             Bool.and_eq_true, ih]
          simp only [ne_eq, reduceCtorEq, not_false_iff, true_and,
            List.mem_cons, forall_eq_or_imp]

/-! ## Claim C9 -/

/-- C9: for every string `S`, `isValidPMID S` is true exactly when `S`
consists of one or more decimal digits, and false when `S` is empty or
contains any non-digit character. -/
theorem isValidPMID_digits_iff (S : String) :
    isValidPMID S = true ↔ S.data ≠ [] ∧ ∀ c ∈ S.data, isDigitChar c = true :=
  digitsPlus_iff S.data

/-! ## Claim C2 -/

/-- C2: with `maxRetries = 3` (the default) and a task failing on every
invocation, `retryWithBackoff` calls the task exactly 3 times, sleeps
`baseDelay * 2^i` milliseconds after failed attempt `i` for `i < 2`, and
rethrows the error of the third (final) invocation. -/
theorem retryWithBackoff_three_failures {E A : Type}
    (fn : Nat → Except E A) (e : Nat → E) (baseDelay : Nat)
    (hfn : ∀ i, fn i = .error (e i)) :
    retryWithBackoff fn 3 baseDelay =
      ⟨.error (some (e 2)), 3, [baseDelay * 2 ^ 0, baseDelay * 2 ^ 1]⟩ := by
  have hg : fn = fun i => .error (e i) := funext hfn
  rw [hg]
  rfl

/-- Witness for C2: a concrete always-failing task. -/
theorem retryWithBackoff_three_failures_witness :
    retryWithBackoff (fun _ => (Except.error "boom" : Except String Unit)) 3 1000 =
      ⟨.error (some "boom"), 3, [1000 * 2 ^ 0, 1000 * 2 ^ 1]⟩ :=
  retryWithBackoff_three_failures (fun _ => Except.error "boom")
    (fun _ => "boom") 1000 (fun _ => rfl)

/-! ## Claim C6 -/

/-- C6 counterexample: the code's regex `[^\w\s\-()\[\]"']` also keeps the
hyphen, which the claim's character class `[A-Za-z0-9_\s()[\]"']` omits; at
`("a-b", "Title")` the code keeps the hyphen while the claimed pipeline
replaces it by a space, so the claimed equality is false. -/
theorem buildFieldQuery_hyphen_counterexample :
    buildFieldQuery "a-b" "Title" = "a-b[Title]" ∧
    specC6BuildFieldQuery "a-b" "Title" = "a b[Title]" ∧
    buildFieldQuery "a-b" "Title" ≠ specC6BuildFieldQuery "a-b" "Title" := by
  refine ⟨rfl, rfl, ?_⟩
  decide

/-- C6 amended: `buildFieldQuery term field` equals the claimed pipeline
once the character class is amended to include the hyphen
(`[A-Za-z0-9_\s\-()[\]"']`); the claim's concrete example then yields
`"cancer treatment[Title]"` (punctuation replaced by spaces, whitespace
collapsed to single spaces, trimmed, bracket-tagged with no space before
the tag). -/
theorem buildFieldQuery_spec_amended :
    (∀ term field, buildFieldQuery term field = specC6BuildFieldQueryAmended term field) ∧
    buildFieldQuery "cancer; treatment!" "Title" = "cancer treatment[Title]" := by
  constructor
  · intro term field
    have hc : ∀ c, codeAllowedChar c = specC6AllowedCharAmended c := by
      intro c
      simp only [codeAllowedChar, specC6AllowedCharAmended, specC6AllowedChar,
        isWordChar]
      rw [Bool.eq_iff_iff]
      simp only [Bool.or_eq_true, Bool.and_eq_true]
      tauto
    have hfun : (fun c => if codeAllowedChar c then c else ' ') =
        (fun c => if specC6AllowedCharAmended c then c else ' ') :=
      funext fun c => by rw [hc c]
    unfold buildFieldQuery sanitizeSearchTerm specC6BuildFieldQueryAmended
    rw [hfun]
  · rfl

/-! ## Claim C3 -/

mutual
theorem extractText_total : ∀ (v : JVal), nullFreeV v = true → ∃ r, extractText v = .ok r
  | .str s, _ => ⟨.str s, rfl⟩
  | .num _, _ => ⟨.str "", rfl⟩
  | .jsBool _, _ => ⟨.str "", rfl⟩
  | .undef, _ => ⟨.str "", rfl⟩
  | .jsNull, h => absurd h (by simp [nullFreeV])
  | .arr l, h => by
      obtain ⟨rs, hrs⟩ := extractList_total l (by simpa [nullFreeV] using h)
      exact ⟨.str (joinSpace rs), by simp only [extractText]; rw [hrs]⟩
  | .obj o, h => by
      by_cases ht : truthy (getPropD "_" o) = true
      · exact ⟨getPropD "_" o, by simp only [extractText]; rw [if_pos ht]⟩
      · obtain ⟨rs, hrs⟩ := extractObjVals_total o (by simpa [nullFreeV] using h)
        refine ⟨.str (joinSpace rs), ?_⟩
        simp only [extractText]
        rw [if_neg ht, hrs]
termination_by structural v => v
theorem extractList_total : ∀ (l : JList), nullFreeL l = true → ∃ rs, extractList l = .ok rs
  | .nil, _ => ⟨[], rfl⟩
  | .cons v rest, h => by
      have hvr : nullFreeV v = true ∧ nullFreeL rest = true := by
        simpa [nullFreeL, Bool.and_eq_true] using h
      obtain ⟨r, hr⟩ := extractText_total v hvr.1
      obtain ⟨rs, hrs⟩ := extractList_total rest hvr.2
      exact ⟨r :: rs, by simp only [extractList]; rw [hr, hrs]⟩
termination_by structural l => l
theorem extractObjVals_total : ∀ (o : JObj), nullFreeO o = true → ∃ rs, extractObjVals o = .ok rs
  | .nil, _ => ⟨[], rfl⟩
  | .cons k v rest, h => by
      have hvr : nullFreeV v = true ∧ nullFreeO rest = true := by
        simpa [nullFreeO, Bool.and_eq_true] using h
      obtain ⟨r, hr⟩ := extractText_total v hvr.1
      obtain ⟨rs, hrs⟩ := extractObjVals_total rest hvr.2
      exact ⟨r :: rs, by simp only [extractObjVals]; rw [hr, hrs]⟩
termination_by structural o => o
end

/-- C3 counterexample: `extractText` is not total — on `null` the code
reaches `Object.values(null)` (since `typeof null === 'object'`) and
throws a `TypeError`. -/
theorem extractText_null_throws : extractText JVal.jsNull = Except.error () := rfl

/-- C3 amended: `extractText` returns a value on every input in which
`null` does not occur (strings, numbers, booleans, `undefined`, arrays and
objects, arbitrarily nested), and is idempotent on its own string output. -/
theorem extractText_total_nullfree_and_idem :
    (∀ v : JVal, nullFreeV v = true → ∃ r, extractText v = .ok r) ∧
    (∀ (x : JVal) (s : String), extractText x = .ok (.str s) →
      extractText (.str s) = .ok (.str s)) :=
  ⟨extractText_total, fun _ _ _ => rfl⟩

/-- Witness for C3: a concrete `null`-free nested value. -/
theorem extractText_total_nullfree_witness :
    ∃ r, extractText (JVal.arr (.cons (.str "a")
      (.cons (.obj (.cons "k" (.num 3) .nil)) .nil))) = .ok r :=
  extractText_total_nullfree_and_idem.1 _ rfl

/-! ## Claim C4 -/

theorem joinSp_append (a b : List String) (ha : a ≠ []) (hb : b ≠ []) :
    joinSp (a ++ b) = joinSp a ++ " " ++ joinSp b := by
  induction a with
  | nil => exact absurd rfl ha
  | cons x a' ih =>
      cases a' with
      | nil =>
          cases b with
          | nil => exact absurd rfl hb
          | cons y b' => rfl
      | cons y a'' =>
          have h1 : joinSp ((x :: y :: a'') ++ b) =
              x ++ " " ++ joinSp ((y :: a'') ++ b) := rfl
          have h2 : joinSp (x :: y :: a'') = x ++ " " ++ joinSp (y :: a'') := rfl
          rw [h1, ih (by simp), h2]
          simp [String.append_assoc]

theorem member_leaves_ne_nil {v : JVal} {ss : List String}
    (h : MemberShape v ss) : ss ≠ [] := by
  cases h <;> simp

theorem extractList_strJList (ss : List String) :
    extractList (strJList ss) = .ok (ss.map JVal.str) := by
  induction ss with
  | nil => rfl
  | cons s rest ih =>
      simp only [strJList, extractList, extractText]
      rw [ih]
      rfl

theorem joinSpace_strs (L : List String) :
    joinSpace (L.map JVal.str) = joinSp L := by
  unfold joinSpace
  rw [List.map_map]
  have h : elemStr ∘ JVal.str = fun s : String => s := funext fun _ => rfl
  rw [h]
  simp

theorem memberShape_eval {v : JVal} {ss : List String} (h : MemberShape v ss) :
    extractText v = .ok (.str (joinSp ss)) := by
  cases h with
  | underscoreObj s =>
      by_cases hs : s = ""
      · subst hs; rfl
      · have ht : truthy (getPropD "_" (.cons "_" (.str s) .nil)) = true := by
          simp [getPropD, getProp, truthy, hs]
        simp only [extractText]
        rw [if_pos ht]
        rfl
  | strArray s ss =>
      simp only [extractText]
      rw [extractList_strJList]
      show Except.ok (JVal.str (joinSpace (List.map JVal.str (s :: ss)))) =
        Except.ok (JVal.str (joinSp (s :: ss)))
      rw [joinSpace_strs]

theorem outerShape_no_underscore {o : JObj} {ls : List String}
    (h : OuterShape o ls) : getProp "_" o = none := by
  induction h with
  | nil => rfl
  | cons k v o ss ls hk _ _ ih => simp [getProp, hk, ih]

theorem outerShape_objVals {o : JObj} {ls : List String} (h : OuterShape o ls) :
    ∃ parts, extractObjVals o = .ok parts ∧
      joinSpace parts = joinSp ls ∧ (parts = [] ↔ ls = []) := by
  induction h with
  | nil => exact ⟨[], rfl, rfl, by simp⟩
  | cons k v o ss ls hk hm ho ih =>
      obtain ⟨parts, hp, hjoin, hiff⟩ := ih
      refine ⟨.str (joinSp ss) :: parts, ?_, ?_, by simp [member_leaves_ne_nil hm]⟩
      · simp only [extractObjVals]
        rw [memberShape_eval hm, hp]
      · cases parts with
        | nil =>
            have hls : ls = [] := hiff.mp rfl
            subst hls
            simp only [List.append_nil]
            rfl
        | cons q parts' =>
            have hls : ls ≠ [] := fun he => by
              cases hiff.mpr he
            have h1 : joinSpace (JVal.str (joinSp ss) :: q :: parts') =
                joinSp ss ++ " " ++ joinSpace (q :: parts') := rfl
            rw [h1, hjoin, joinSp_append ss ls (member_leaves_ne_nil hm) hls]

/-- C4: on every input of the claimed shape — an object whose member values
are objects carrying a text payload under the underscore key or (nonempty)
arrays of strings — `extractText` returns the single space-joined
flattening of the leaf strings in input traversal order. -/
theorem extractText_shape_flatten (o : JObj) (ls : List String)
    (h : OuterShape o ls) : extractText (.obj o) = .ok (.str (joinSp ls)) := by
  have hu : getPropD "_" o = .undef := by
    simp [getPropD, outerShape_no_underscore h]
  obtain ⟨parts, hp, hjoin, _⟩ := outerShape_objVals h
  simp only [extractText]
  rw [hu, if_neg (by decide : ¬ truthy JVal.undef = true), hp]
  show Except.ok (JVal.str (joinSpace parts)) = Except.ok (JVal.str (joinSp ls))
  rw [hjoin]

/-- Witness for C4: the exemplar `{a: {_: "x"}, b: ["y", "z"]}` yields
`"x y z"`. -/
theorem extractText_shape_flatten_witness :
    extractText (.obj (.cons "a" (.obj (.cons "_" (.str "x") .nil))
      (.cons "b" (.arr (.cons (.str "y") (.cons (.str "z") .nil))) .nil))) =
    .ok (.str "x y z") :=
  extractText_shape_flatten _ (["x"] ++ (["y", "z"] ++ []))
    (OuterShape.cons "a" _ _ ["x"] (["y", "z"] ++ []) (by decide)
      (MemberShape.underscoreObj "x")
      (OuterShape.cons "b" _ _ ["y", "z"] [] (by decide)
        (MemberShape.strArray "y" ["z"]) OuterShape.nil))

/-! ## Claim C7 -/

theorem jsUpperChar_ws_idem (c : Char) :
    jsWhitespace (jsUpperChar c) = jsWhitespace c ∧
    jsUpperChar (jsUpperChar c) = jsUpperChar c := by
  by_cases h1 : c = 'a'
  · subst h1; exact ⟨rfl, rfl⟩
  by_cases h2 : c = 'b'
  · subst h2; exact ⟨rfl, rfl⟩
  by_cases h3 : c = 'c'
  · subst h3; exact ⟨rfl, rfl⟩
  by_cases h4 : c = 'd'
  · subst h4; exact ⟨rfl, rfl⟩
  by_cases h5 : c = 'e'
  · subst h5; exact ⟨rfl, rfl⟩
  by_cases h6 : c = 'f'
  · subst h6; exact ⟨rfl, rfl⟩
  by_cases h7 : c = 'g'
  · subst h7; exact ⟨rfl, rfl⟩
  by_cases h8 : c = 'h'
  · subst h8; exact ⟨rfl, rfl⟩
  by_cases h9 : c = 'i'
  · subst h9; exact ⟨rfl, rfl⟩
  by_cases h10 : c = 'j'
  · subst h10; exact ⟨rfl, rfl⟩
  by_cases h11 : c = 'k'
  · subst h11; exact ⟨rfl, rfl⟩
  by_cases h12 : c = 'l'
  · subst h12; exact ⟨rfl, rfl⟩
  by_cases h13 : c = 'm'
  · subst h13; exact ⟨rfl, rfl⟩
  by_cases h14 : c = 'n'
  · subst h14; exact ⟨rfl, rfl⟩
  by_cases h15 : c = 'o'
  · subst h15; exact ⟨rfl, rfl⟩
  by_cases h16 : c = 'p'
  · subst h16; exact ⟨rfl, rfl⟩
  by_cases h17 : c = 'q'
  · subst h17; exact ⟨rfl, rfl⟩
  by_cases h18 : c = 'r'
  · subst h18; exact ⟨rfl, rfl⟩
  by_cases h19 : c = 's'
  · subst h19; exact ⟨rfl, rfl⟩
  by_cases h20 : c = 't'
  · subst h20; exact ⟨rfl, rfl⟩
  by_cases h21 : c = 'u'
  · subst h21; exact ⟨rfl, rfl⟩
  by_cases h22 : c = 'v'
  · subst h22; exact ⟨rfl, rfl⟩
  by_cases h23 : c = 'w'
  · subst h23; exact ⟨rfl, rfl⟩
  by_cases h24 : c = 'x'
  · subst h24; exact ⟨rfl, rfl⟩
  by_cases h25 : c = 'y'
  · subst h25; exact ⟨rfl, rfl⟩
  by_cases h26 : c = 'z'
  · subst h26; exact ⟨rfl, rfl⟩
  have hc : jsUpperChar c = c := by
    unfold jsUpperChar
    simp [h1, h2, h3, h4, h5, h6, h7, h8, h9, h10, h11, h12, h13, h14, h15,
      h16, h17, h18, h19, h20, h21, h22, h23, h24, h25, h26]
  constructor
  · rw [hc]
  · rw [hc]; exact hc

theorem trimChars_eq_rdrop (l : List Char) :
    trimChars l = List.rdropWhile jsWhitespace (List.dropWhile jsWhitespace l) := rfl

theorem dropWhile_eq_self_of_isPrefixOf {p : Char → Bool} {r d : List Char}
    (hpre : r <+: d) (hd : List.dropWhile p d = d) :
    List.dropWhile p r = r := by
  cases r with
  | nil => rfl
  | cons c r' =>
      obtain ⟨t, ht⟩ := hpre
      have hc : p c = false := by
        by_contra hpc
        have hpc' : p c = true := by simpa using hpc
        have hd2 : List.dropWhile p d = List.dropWhile p (r' ++ t) := by
          rw [← ht]
          simp [List.dropWhile_cons, hpc']
        rw [hd] at hd2
        have hlen : (List.dropWhile p (r' ++ t)).length ≤ (r' ++ t).length :=
          List.Sublist.length_le (List.dropWhile_sublist _)
        have hlen2 : d.length = (r' ++ t).length + 1 := by
          rw [← ht]; simp
        have := congrArg List.length hd2
        omega
      simp [List.dropWhile_cons, hc]

theorem trimChars_idem (l : List Char) :
    trimChars (trimChars l) = trimChars l := by
  rw [trimChars_eq_rdrop, trimChars_eq_rdrop]
  have h1 : List.dropWhile jsWhitespace
      (List.rdropWhile jsWhitespace (List.dropWhile jsWhitespace l)) =
      List.rdropWhile jsWhitespace (List.dropWhile jsWhitespace l) :=
    dropWhile_eq_self_of_isPrefixOf ( List.rdropWhile_prefix _ _)
      (List.dropWhile_idempotent _ _)
  rw [h1, List.rdropWhile_idempotent]

theorem trimChars_map_upper (l : List Char) :
    trimChars (l.map jsUpperChar) = (trimChars l).map jsUpperChar := by
  have hcomp : (jsWhitespace ∘ jsUpperChar) = jsWhitespace :=
    funext fun c => (jsUpperChar_ws_idem c).1
  rw [trimChars_eq_rdrop, trimChars_eq_rdrop, List.dropWhile_map, hcomp]
  unfold List.rdropWhile
  rw [← List.map_reverse, List.dropWhile_map, hcomp, ← List.map_reverse]

theorem map_upper_idem (l : List Char) :
    (l.map jsUpperChar).map jsUpperChar = l.map jsUpperChar := by
  induction l with
  | nil => rfl
  | cons c cs ih =>
      simp only [List.map_cons]
      rw [(jsUpperChar_ws_idem c).2, ih]

theorem trimChars_PMC_cons (C : List Char) (hC : trimChars C = C) :
    trimChars ('P' :: 'M' :: 'C' :: C) = 'P' :: 'M' :: 'C' :: C := by
  have hrd : List.rdropWhile jsWhitespace C = C := by
    conv_lhs => rw [← hC, trimChars_eq_rdrop, List.rdropWhile_idempotent,
      ← trimChars_eq_rdrop, hC]
  rw [trimChars_eq_rdrop]
  have hdw : List.dropWhile jsWhitespace ('P' :: 'M' :: 'C' :: C) =
      'P' :: 'M' :: 'C' :: C := by
    rw [List.dropWhile_cons, if_neg (by decide)]
  rw [hdw, List.rdropWhile_eq_self_iff]
  intro hl
  cases C with
  | nil => exact fun h => absurd h (show ¬ jsWhitespace 'C' = true by decide)
  | cons c0 cs =>
      have hne : (c0 :: cs : List Char) ≠ [] := by simp
      rw [List.getLast_cons (by simp), List.getLast_cons (by simp),
        List.getLast_cons hne]
      exact List.rdropWhile_eq_self_iff.mp hrd hne

theorem normalizePMCID_eq (x : String) :
    normalizePMCID x =
      (if isPrefixL ['P', 'M', 'C'] ((trimChars x.data).map jsUpperChar)
       then String.mk ((trimChars x.data).map jsUpperChar)
       else String.mk ('P' :: 'M' :: 'C' :: (trimChars x.data).map jsUpperChar)) :=
  rfl

/-- C7: `normalizePMCID` is idempotent, and its output always starts with
`PMC` (trim and uppercase, then prefix `PMC` unless already present). -/
theorem normalizePMCID_idem_and_prefix (x : String) :
    normalizePMCID (normalizePMCID x) = normalizePMCID x ∧
    strStartsWith (normalizePMCID x) "PMC" = true := by
  obtain ⟨C, hC⟩ : ∃ C, (trimChars x.data).map jsUpperChar = C := ⟨_, rfl⟩
  have htrimC : trimChars C = C := by
    rw [← hC, trimChars_map_upper, trimChars_idem]
  have hupC : C.map jsUpperChar = C := by
    rw [← hC]; exact map_upper_idem _
  rw [normalizePMCID_eq x, hC]
  by_cases hpre : isPrefixL ['P', 'M', 'C'] C = true
  · rw [if_pos hpre]
    constructor
    · rw [normalizePMCID_eq (String.mk C)]
      have hdata : (String.mk C).data = C := rfl
      rw [hdata, htrimC, hupC, if_pos hpre]
    · show isPrefixL ['P', 'M', 'C'] C = true
      exact hpre
  · rw [if_neg hpre]
    have hPMCup : ('P' :: 'M' :: 'C' :: C).map jsUpperChar =
        'P' :: 'M' :: 'C' :: C := by
      simp only [List.map_cons]
      rw [hupC]
      rfl
    have hpre2 : isPrefixL ['P', 'M', 'C'] ('P' :: 'M' :: 'C' :: C) = true := by
      simp [isPrefixL]
    constructor
    · rw [normalizePMCID_eq (String.mk ('P' :: 'M' :: 'C' :: C))]
      have hdata : (String.mk ('P' :: 'M' :: 'C' :: C)).data =
          'P' :: 'M' :: 'C' :: C := rfl
      rw [hdata, trimChars_PMC_cons C htrimC, hPMCup, if_pos hpre2]
    · show isPrefixL ['P', 'M', 'C'] ('P' :: 'M' :: 'C' :: C) = true
      exact hpre2

/-! ## Claim C5 -/

/-- C5: a tool-handler call carrying a malformed identifier (a PMID failing
`isValidPMID`, or a batch that is empty, exceeds 200 PMIDs, or contains an
invalid PMID) throws a descriptive error with an empty upstream-request
list: no rate-limiter or HTTP call is made for inputs failing validation. -/
theorem handlers_validate_before_network (o : EutilsOracle) (pmid : String)
    (pmids : List String)
    (h1 : isValidPMID pmid = false)
    (h2 : pmids = [] ∨ 200 < pmids.length ∨ ∃ p ∈ pmids, isValidPMID p = false) :
    handleGetArticleDetails o pmid =
      ([], .error (.errorInst ("Invalid PMID format: " ++ pmid))) ∧
    ((handleBatchArticleLookup o pmids).1 = [] ∧
      ∃ m, (handleBatchArticleLookup o pmids).2 = .error (.errorInst m)) := by
  refine ⟨?_, ?_⟩
  · simp [handleGetArticleDetails, h1]
  · rcases h2 with he | hbig | ⟨p, hp, hv⟩
    · subst he
      exact ⟨rfl, "pmids must be a non-empty array", rfl⟩
    · have h0 : ¬ (pmids.length = 0) := by omega
      refine ⟨?_, "Maximum 200 PMIDs allowed per batch", ?_⟩ <;>
        simp [handleBatchArticleLookup, h0, hbig]
    · have h0 : ¬ (pmids.length = 0) := by
        intro h
        rw [List.length_eq_zero] at h
        subst h
        cases hp
      have hne : pmids.find? (fun x => !isValidPMID x) ≠ none := fun hnone =>
        absurd (by simp [hv] : (!isValidPMID p) = true)
          (List.find?_eq_none.mp hnone p hp)
      obtain ⟨q, hq⟩ := Option.ne_none_iff_exists'.mp hne
      by_cases hbig : 200 < pmids.length
      · refine ⟨?_, "Maximum 200 PMIDs allowed per batch", ?_⟩ <;>
          simp [handleBatchArticleLookup, h0, hbig]
      · refine ⟨?_, "Invalid PMID format: " ++ q, ?_⟩ <;>
          simp [handleBatchArticleLookup, h0, hbig, hq]

/-- Witness for C5: an invalid PMID and an empty batch against a concrete
oracle. -/
theorem handlers_validate_before_network_witness :
    handleGetArticleDetails
        ⟨fun _ => .ok ⟨none, none, none⟩, fun _ => .ok [], fun _ => .ok []⟩
        "12a" =
      ([], .error (.errorInst ("Invalid PMID format: " ++ "12a"))) ∧
    ((handleBatchArticleLookup
        ⟨fun _ => .ok ⟨none, none, none⟩, fun _ => .ok [], fun _ => .ok []⟩
        ([] : List String)).1 = [] ∧
      ∃ m, (handleBatchArticleLookup
        ⟨fun _ => .ok ⟨none, none, none⟩, fun _ => .ok [], fun _ => .ok []⟩
        ([] : List String)).2 = .error (.errorInst m)) :=
  handlers_validate_before_network _ "12a" [] rfl (Or.inl rfl)

/-! ## Claim C10 -/

/-- C10 counterexample: the claim's clause that every tool handler other
than `handleConvertIdentifiers` rethrows upstream failures is false —
`handleValidatePMID` also catches the upstream lookup failure and returns
an ordinary success payload (`valid: true, exists: false`) at a concrete
valid PMID against an oracle whose lookup throws. -/
theorem validatePMID_catches_upstream_counterexample :
    handleValidatePMID
        ⟨fun _ => .error (.errorInst "not found"),
         fun _ => .error (.errorInst "not found"),
         fun _ => .error (.errorInst "not found")⟩ "123" =
      .ok ⟨true, "123", some false, "Valid PMID format but article not found"⟩ :=
  rfl

/-- C10 amended: when the identifier type resolves (explicitly or by
auto-detect), `handleConvertIdentifiers` never propagates an upstream
lookup failure: a failing `try` block yields an ordinary success payload
carrying the input identifier and type, an empty conversions object, and
the extracted error message — unlike handlers such as
`handleGetArticleDetails`, which rethrow the upstream error
(`handleValidatePMID` is the other catching handler). -/
theorem convertIdentifiers_catches_upstream (o : EutilsOracle)
    (identifier idType rt : String) (e : ErrVal)
    (hres : resolveIdType identifier idType = .ok rt)
    (hfail : tryConvert o identifier rt = .error e)
    (pmid : String) (hpmid : isValidPMID pmid = true)
    (edet : ErrVal) (hdet : o.getArticleDetails pmid = .error edet) :
    handleConvertIdentifiers o identifier idType =
      .ok ⟨identifier, rt, [], some (extractErrorMessage e)⟩ ∧
    (handleGetArticleDetails o pmid).2 = .error edet := by
  constructor
  · simp [handleConvertIdentifiers, hres, hfail]
  · simp [handleGetArticleDetails, hpmid, hdet]

/-- Witness for C10: an auto-detected PMID whose upstream lookup fails. -/
theorem convertIdentifiers_catches_upstream_witness :
    handleConvertIdentifiers
        ⟨fun _ => .error (.errorInst "not found"),
         fun _ => .error (.errorInst "not found"),
         fun _ => .error (.errorInst "not found")⟩ "123" "auto" =
      .ok ⟨"123", "pmid", [], some "not found"⟩ ∧
    (handleGetArticleDetails
        ⟨fun _ => .error (.errorInst "not found"),
         fun _ => .error (.errorInst "not found"),
         fun _ => .error (.errorInst "not found")⟩ "123").2 =
      .error (.errorInst "not found") :=
  convertIdentifiers_catches_upstream
    ⟨fun _ => .error (.errorInst "not found"),
     fun _ => .error (.errorInst "not found"),
     fun _ => .error (.errorInst "not found")⟩ "123" "auto" "pmid"
    (.errorInst "not found") rfl rfl "123" rfl (.errorInst "not found") rfl

/-! ## Claim C8 -/

/-- C8: in `bibtex` style, an article with single author "Doe, Jane",
title "T", journal "J" and publication year "2024" produces output starting
with `@article{Doe2024,` and containing a `  title = {T},` line. -/
theorem formatCitation_bibtex_contains (article : Article)
    (hA : article.authors = [⟨"Doe", some "Jane", none⟩])
    (hT : article.title = "T") (hJ : article.journal = "J")
    (hY : yearOf article.publicationDate = "2024") :
    (∃ su, formatCitation article .bibtex = "@article\x7bDoe2024," ++ su) ∧
    (∃ pre su, formatCitation article .bibtex =
      pre ++ ("  title = \x7bT\x7d,\n" ++ su)) := by
  have key : formatCitation article .bibtex =
      "@article\x7bDoe2024,\n  author = \x7bDoe, Jane\x7d,\n  title = \x7bT\x7d,\n  journal = \x7bJ\x7d,\n  year = \x7b2024\x7d,\n"
        ++ (optField article.volume (fun v => "  volume = \x7b" ++ v ++ "\x7d,\n")
        ++ (optField article.issue (fun i => "  number = \x7b" ++ i ++ "\x7d,\n")
        ++ (optField article.pages (fun p => "  pages = \x7b" ++ p ++ "\x7d,\n")
        ++ (optField article.doi (fun d => "  doi = \x7b" ++ d ++ "\x7d,\n")
        ++ "\x7d")))) := by
    simp only [formatCitation, formatBibTeXCitation, hA, hT, hJ, hY]
    apply String.ext
    simp only [String.data_append, List.append_assoc]
    rfl
  constructor
  · exact ⟨"\n  author = \x7bDoe, Jane\x7d,\n  title = \x7bT\x7d,\n  journal = \x7bJ\x7d,\n  year = \x7b2024\x7d,\n"
      ++ (optField article.volume (fun v => "  volume = \x7b" ++ v ++ "\x7d,\n")
      ++ (optField article.issue (fun i => "  number = \x7b" ++ i ++ "\x7d,\n")
      ++ (optField article.pages (fun p => "  pages = \x7b" ++ p ++ "\x7d,\n")
      ++ (optField article.doi (fun d => "  doi = \x7b" ++ d ++ "\x7d,\n")
      ++ "\x7d")))),
      by
        rw [key]
        apply String.ext
        simp only [String.data_append, List.append_assoc]
        rfl⟩
  · exact ⟨"@article\x7bDoe2024,\n  author = \x7bDoe, Jane\x7d,\n",
      "  journal = \x7bJ\x7d,\n  year = \x7b2024\x7d,\n"
      ++ (optField article.volume (fun v => "  volume = \x7b" ++ v ++ "\x7d,\n")
      ++ (optField article.issue (fun i => "  number = \x7b" ++ i ++ "\x7d,\n")
      ++ (optField article.pages (fun p => "  pages = \x7b" ++ p ++ "\x7d,\n")
      ++ (optField article.doi (fun d => "  doi = \x7b" ++ d ++ "\x7d,\n")
      ++ "\x7d")))),
      by
        rw [key]
        apply String.ext
        simp only [String.data_append, List.append_assoc]
        rfl⟩

/-- Witness for C8: a concrete article with those fields. -/
theorem formatCitation_bibtex_contains_witness :
    (∃ su, formatCitation
      ⟨[⟨"Doe", some "Jane", none⟩], "T", "J", "2024-01-15",
        none, none, none, none⟩ .bibtex = "@article\x7bDoe2024," ++ su) ∧
    (∃ pre su, formatCitation
      ⟨[⟨"Doe", some "Jane", none⟩], "T", "J", "2024-01-15",
        none, none, none, none⟩ .bibtex =
      pre ++ ("  title = \x7bT\x7d,\n" ++ su)) :=
  formatCitation_bibtex_contains _ rfl rfl rfl rfl

/-! ## Claim C1 -/

theorem runGate_map_fst (interval now last : ℚ) (ts : List GateTask) :
    (runGate interval now last ts).map Prod.fst = ts.map GateTask.tid := by
  induction ts generalizing now last with
  | nil => rfl
  | cons t ts ih =>
      simp only [runGate, List.map_cons]
      rw [ih]

theorem runGate_cons (interval now last : ℚ) (t : GateTask) (ts : List GateTask) :
    runGate interval now last (t :: ts) =
      (t.tid, if now - last < interval then last + interval else now) ::
        runGate interval
          ((if now - last < interval then last + interval else now) + t.dur)
          (if now - last < interval then last + interval else now) ts := rfl

theorem gate_spacing (interval s d : ℚ) :
    s + interval ≤ if (s + d) - s < interval then s + interval else s + d := by
  by_cases h : (s + d) - s < interval
  · rw [if_pos h]
  · rw [if_neg h]
    have h2 : interval ≤ (s + d) - s := le_of_not_lt h
    linarith

theorem runGate_chain (interval : ℚ) (ts : List GateTask) :
    ∀ now last, List.Chain' (fun a b : Nat × ℚ => a.2 + interval ≤ b.2)
      (runGate interval now last ts) := by
  induction ts with
  | nil => intro now last; simp [runGate]
  | cons t ts ih =>
      intro now last
      cases ts with
      | nil => simp [runGate]
      | cons t' ts' =>
          rw [runGate_cons, runGate_cons]
          refine List.chain'_cons.mpr ⟨gate_spacing interval _ t.dur, ?_⟩
          rw [← runGate_cons]
          exact ih _ _

theorem chain'_get_le (q : ℚ) (l : List (Nat × ℚ))
    (h : List.Chain' (fun a b : Nat × ℚ => a.2 + q ≤ b.2) l) (i : ℕ) :
    ∀ j, i ≤ j → ∀ (hi : i < l.length) (hj : j < l.length),
      (l.get ⟨i, hi⟩).2 + (j - i : ℕ) * q ≤ (l.get ⟨j, hj⟩).2 := by
  intro j hij
  induction j, hij using Nat.le_induction with
  | base => intro hi hj; simp
  | succ j hij ih =>
      intro hi hj1
      have hj' : j < l.length := Nat.lt_of_succ_lt hj1
      have hstep' : (l.get ⟨j, hj'⟩).2 + q ≤ (l.get ⟨j + 1, hj1⟩).2 :=
        List.chain'_iff_get.mp h j (by omega)
      have hih := ih hi hj'
      have hcast : ((j + 1 - i : ℕ) : ℚ) = ((j - i : ℕ) : ℚ) + 1 := by
        have heq : j + 1 - i = (j - i) + 1 := by omega
        rw [heq]
        push_cast
        ring
      rw [hcast]
      have hexp : ((j - i : ℕ) + 1 : ℚ) * q = ((j - i : ℕ) : ℚ) * q + q := by ring
      rw [hexp]
      linarith [hih, hstep']

/-- C1: for a gate `RateLimiter(R)` with `R > 0` (minimum spacing
`1000 / R` milliseconds), a drain of the FIFO queue started at any time
`now` with any `lastRequestTime` `last` satisfies: (1) tasks are dispatched
strictly in submission order; (2) consecutive dispatch instants are at
least `1000 / R` apart; (3) no two dispatches are less than `1000 / R`
apart; (4) the `i`-th dispatched task (0-indexed) begins no earlier than
`i * (1000 / R)` milliseconds after the first dispatch — in particular for
`K` tasks all queued at time 0. -/
theorem rateLimiter_gate_properties (R : ℚ) (hR : 0 < R) (now last : ℚ)
    (tasks : List GateTask) :
    ((runGate (1000 / R) now last tasks).map Prod.fst = tasks.map GateTask.tid) ∧
    List.Chain' (fun a b : Nat × ℚ => a.2 + 1000 / R ≤ b.2)
      (runGate (1000 / R) now last tasks) ∧
    (∀ i j (hi : i < (runGate (1000 / R) now last tasks).length)
        (hj : j < (runGate (1000 / R) now last tasks).length), i < j →
        ((runGate (1000 / R) now last tasks).get ⟨i, hi⟩).2 + 1000 / R ≤
          ((runGate (1000 / R) now last tasks).get ⟨j, hj⟩).2) ∧
    (∀ i (hi : i < (runGate (1000 / R) now last tasks).length)
        (h0 : 0 < (runGate (1000 / R) now last tasks).length),
        ((runGate (1000 / R) now last tasks).get ⟨0, h0⟩).2 + i * (1000 / R) ≤
          ((runGate (1000 / R) now last tasks).get ⟨i, hi⟩).2) := by
  have hchain := runGate_chain (1000 / R) tasks now last
  refine ⟨runGate_map_fst _ _ _ _, hchain, ?_, ?_⟩
  · intro i j hi hj hij
    have h := chain'_get_le _ _ hchain i j (le_of_lt hij) hi hj
    have hq : 0 < 1000 / R := by positivity
    have hji : (1 : ℚ) ≤ ((j - i : ℕ) : ℚ) := by
      have h1 : 1 ≤ j - i := by omega
      exact_mod_cast h1
    have h2 : (1000 / R) ≤ ((j - i : ℕ) : ℚ) * (1000 / R) :=
      le_mul_of_one_le_left (le_of_lt hq) hji
    linarith
  · intro i hi h0
    have h := chain'_get_le _ _ hchain 0 i (Nat.zero_le i) h0 hi
    simpa using h

/-- Witness for C1: a gate at 2 requests/second with two queued tasks
dispatches them in submission order. -/
theorem rateLimiter_gate_witness :
    (runGate (1000 / 2) 5 0 [⟨0, 3⟩, ⟨1, 700⟩]).map Prod.fst = [0, 1] :=
  (rateLimiter_gate_properties 2 (by norm_num) 5 0 [⟨0, 3⟩, ⟨1, 700⟩]).1
